import Mathlib

/-
  Shallow embedding of stumap/MSNGC/feature_extractor.py.

  Conventions of the embedding:
  * Molecule coordinates are exact integers (the source indexes the mask
    with them, so they are integral in every run), radii are integers,
    and Euclidean distances are exact reals.
  * sklearn's radius query keeps a point p iff dist(p, q) <= radius; over
    integer data this is the decidable test 0 <= r and d2 <= r * r on the
    squared distance, see lemma sqrt_le_radius_iff.
  * numpy percentile with linear interpolation is computed exactly: the
    threshold is returned as a fraction (numerator, denominator) with a
    positive denominator, and the strict comparison score < threshold
    becomes score * denominator < numerator.
  * Fallible numpy / sklearn calls (fitting an empty index, a percentile
    outside [0, 100], fancy indexing below -shape) return Except PErr.
  * The LocalOutlierFactor detector is an external library black box; it
    enters the pipeline as an oracle parameter producing the boolean
    outlier mask (the code only uses the mask to overwrite is_noise).
  * The NGC matrix is allocated with dtype int8: a stored entry is the
    count reduced into [-128, 127], see toInt8.
-/

/-! ## Basic geometry -/

abbrev Pt2 := ℤ × ℤ

abbrev Pt3 := ℤ × ℤ × ℤ

/-- Squared Euclidean distance of two points of the plane. -/
def sqDist2 (p q : Pt2) : ℤ :=
  (p.1 - q.1) * (p.1 - q.1) + (p.2 - q.2) * (p.2 - q.2)

/-- Squared Euclidean distance of two points of space. -/
def sqDist3 (p q : Pt3) : ℤ :=
  (p.1 - q.1) * (p.1 - q.1) + (p.2.1 - q.2.1) * (p.2.1 - q.2.1) +
    (p.2.2 - q.2.2) * (p.2.2 - q.2.2)

/-- sklearn keeps a fitted point p for query q iff dist(p,q) <= radius.
    On integer data this is equivalent to the exact integer test below
    (lemma sqrt_le_radius_iff). -/
def withinRadius (r d2 : ℤ) : Bool :=
  decide (0 ≤ r) && decide (d2 ≤ r * r)

/-! ## The molecule table -/

/-- One row of the spots dataframe: the three location columns, the gene
    id and the is_noise flag. -/
structure Spot3 where
  loc1 : ℤ
  loc2 : ℤ
  loc3 : ℤ
  gene : ℕ
  isNoise : ℤ
deriving DecidableEq

/-- spots[['spot_location_2', 'spot_location_1', 'spot_location_3']], the
    axis order used by preprocessing_data (mask axis order). -/
def spotsArray3 (s : Spot3) : Pt3 := (s.loc2, s.loc1, s.loc3)

/-- spots[['spot_location_1', 'spot_location_2', 'spot_location_3']], the
    axis order used by NGC. -/
def xData3 (s : Spot3) : Pt3 := (s.loc1, s.loc2, s.loc3)

/-! ## Error conditions of the numpy / sklearn calls -/

inductive PErr where
  | zeroDivision
  | fitEmpty
  | percentileOutOfRange
  | percentileEmpty
  | indexOutOfBounds
deriving DecidableEq

/-- Whether an Except value is a success. -/
def isOk {ε α : Type} : Except ε α → Bool
  | .ok _ => true
  | .error _ => false

/-! ## The denoiser radius query (preprocessing_data) -/

/-- 3D branch: knn = NearestNeighbors(radius=xy_radius * 2) fitted on the
    combined point set; the returned neighbor list of a query point. -/
def denoiserNeighbors3 (pts : List Pt3) (q : Pt3) (xy : ℤ) : List Pt3 :=
  pts.filter fun p => withinRadius (xy * 2) (sqDist3 p q)

/-- 2D branch: knn = NearestNeighbors(radius=xy_radius). -/
def denoiserNeighbors2 (pts : List Pt2) (q : Pt2) (xy : ℤ) : List Pt2 :=
  pts.filter fun p => withinRadius xy (sqDist2 p q)

/-- The neighbor query the spec claims for the 3D denoiser: initial radius
    max(xy_radius, z_radius) pruned to |depth offset| <= min of the radii.
    Stated from the spec wording, for comparison with denoiserNeighbors3. -/
def specDenoiserNeighbors3 (pts : List Pt3) (q : Pt3) (xy z : ℤ) : List Pt3 :=
  (pts.filter fun p => withinRadius (max xy z) (sqDist3 p q)).filter
    fun p => decide (|p.2.2 - q.2.2| ≤ min xy z)

/-- 3D density score, dis_neighbors = [(ii * ii).sum(0) for ii in neigh_dist]:
    the source squares the returned distances, so the value is the exact
    integer sum of squared distances (theorem for C2 proves the real-number
    computation collapses to this). -/
def denoiserScore3 (pts : List Pt3) (q : Pt3) (xy : ℤ) : ℤ :=
  ((denoiserNeighbors3 pts q xy).map fun p => sqDist3 p q).sum

/-- The real-valued distance list neigh_dist of the 3D query. -/
noncomputable def neighDistR3 (pts : List Pt3) (q : Pt3) (xy : ℤ) : List ℝ :=
  (denoiserNeighbors3 pts q xy).map fun p => Real.sqrt ((sqDist3 p q : ℤ) : ℝ)

/-- 3D branch as written, dis_neighbors = (ii * ii).sum(0): sum of squared
    neighbor distances. -/
noncomputable def disNeighborR3 (pts : List Pt3) (q : Pt3) (xy : ℤ) : ℝ :=
  ((neighDistR3 pts q xy).map fun d => d * d).sum

/-- The real-valued distance list neigh_dist of the 2D query. -/
noncomputable def neighDistR2 (pts : List Pt2) (q : Pt2) (xy : ℤ) : List ℝ :=
  (denoiserNeighbors2 pts q xy).map fun p => Real.sqrt ((sqDist2 p q : ℤ) : ℝ)

/-- 2D branch as written, dis_neighbors = ii.sum(0): sum of UNsquared
    neighbor distances. -/
noncomputable def disNeighborR2 (pts : List Pt2) (q : Pt2) (xy : ℤ) : ℝ :=
  (neighDistR2 pts q xy).sum

/-! ## Exact numpy percentile -/

/-- Insert into a sorted list, keeping it sorted ascending. -/
def insertSorted (x : ℤ) : List ℤ → List ℤ
  | [] => [x]
  | y :: ys => if x ≤ y then x :: y :: ys else y :: insertSorted x ys

/-- np.sort ascending (only the sorted result matters to percentile). -/
def sortInts (l : List ℤ) : List ℤ := l.foldr insertSorted []

/-- np.percentile(xs, pct * 100) with the default linear interpolation,
    computed exactly.  Raises for pct * 100 outside [0, 100] (numpy
    validates q before touching the data) and for an empty data list.
    The result (tn, td) represents the threshold tn / td with td > 0. -/
def npPercentile100 (xs : List ℤ) (pct : ℚ) : Except PErr (ℤ × ℤ) :=
  if pct.num < 0 ∨ (pct.den : ℤ) < pct.num then .error .percentileOutOfRange
  else if xs.length = 0 then .error .percentileEmpty
  else
    let s := sortInts xs
    let n := s.length
    let den : ℤ := (pct.den : ℤ)
    let rankNum : ℤ := pct.num * ((n : ℤ) - 1)
    let k : ℕ := (Int.fdiv rankNum den).toNat
    let below := s.getD k 0
    let above := s.getD (min (k + 1) (n - 1)) 0
    .ok (below * den + (rankNum - (k : ℤ) * den) * (above - below), den)

/-! ## Background sampling and the mask override -/

/-- Coordinates of the True voxels of the sub-sampled mask, in np.argwhere
    order: the grid point (ii, jj, kk) is kept iff every axis is congruent
    to 1 modulo dapi_grid_interval and the mask voxel is True.  (Meaningful
    only for a nonzero interval: dapiCoord3 below guards this list behind
    the ZeroDivisionError that ii % 0 raises in the source.) -/
def dapiCoordList3 (shape : ℕ × ℕ × ℕ) (g : ℕ) (maskB : ℕ → ℕ → ℕ → Bool) : List Pt3 :=
  (List.range shape.1).flatMap fun ii =>
    (List.range shape.2.1).flatMap fun jj =>
      (List.range shape.2.2).filterMap fun kk =>
        if ii % g = 1 ∧ jj % g = 1 ∧ kk % g = 1 ∧ maskB ii jj kk = true then
          some ((ii : ℤ), (jj : ℤ), (kk : ℤ))
        else none

/-- The background-sampling loop: iterating product(range(s0), range(s1),
    range(s2)), the very first tuple evaluates ii % dapi_grid_interval, so
    interval 0 raises ZeroDivisionError whenever the grid is nonempty (an
    empty grid runs zero iterations and cannot raise). -/
def dapiCoord3 (shape : ℕ × ℕ × ℕ) (g : ℕ) (maskB : ℕ → ℕ → ℕ → Bool) :
    Except PErr (List Pt3) :=
  if g = 0 ∧ 0 < shape.1 ∧ 0 < shape.2.1 ∧ 0 < shape.2.2 then
    .error .zeroDivision
  else .ok (dapiCoordList3 shape g maskB)

/-- inDAPI_points bound check of the source: it only tests the UPPER bound
    coordinate - 1 < shape on every axis. -/
def inDapi3 (shape : ℕ × ℕ × ℕ) (p : Pt3) : Bool :=
  decide (p.1 - 1 < (shape.1 : ℤ)) && decide (p.2.1 - 1 < (shape.2.1 : ℤ)) &&
    decide (p.2.2 - 1 < (shape.2.2 : ℤ))

/-- Python / numpy integer indexing into an axis of length s: a negative
    index wraps to the end of the axis; below -s it raises IndexError. -/
def pyIndex (s : ℕ) (x : ℤ) : Except PErr ℕ :=
  if 0 ≤ x then (if x < (s : ℤ) then .ok x.toNat else .error .indexOutOfBounds)
  else (if 0 ≤ x + (s : ℤ) then .ok (x + (s : ℤ)).toNat else .error .indexOutOfBounds)

/-- Total wrapped index (the value pyIndex returns when it succeeds). -/
def wrapIdx (s : ℕ) (x : ℤ) : ℕ :=
  if 0 ≤ x then x.toNat else (x + (s : ℤ)).toNat

/-- dapi_binary[p0 - 1, p1 - 1, p2 - 1] with Python indexing semantics. -/
def maskLookup3 (shape : ℕ × ℕ × ℕ) (maskB : ℕ → ℕ → ℕ → Bool) (p : Pt3) :
    Except PErr Bool :=
  match pyIndex shape.1 (p.1 - 1) with
  | .error e => .error e
  | .ok i =>
    match pyIndex shape.2.1 (p.2.1 - 1) with
    | .error e => .error e
    | .ok j =>
      match pyIndex shape.2.2 (p.2.2 - 1) with
      | .error e => .error e
      | .ok k => .ok (maskB i j k)

/-- The mask voxel pyIndex-wrapped indexing would read (total version). -/
def maskWrap3 (shape : ℕ × ℕ × ℕ) (maskB : ℕ → ℕ → ℕ → Bool) (p : Pt3) : Bool :=
  maskB (wrapIdx shape.1 (p.1 - 1)) (wrapIdx shape.2.1 (p.2.1 - 1))
    (wrapIdx shape.2.2 (p.2.2 - 1))

/-- test = dapi_binary[fancy index over the inDAPI-filtered points]. -/
def lookupAll3 (shape : ℕ × ℕ × ℕ) (maskB : ℕ → ℕ → ℕ → Bool) :
    List Pt3 → Except PErr (List Bool)
  | [] => .ok []
  | p :: ps =>
    match maskLookup3 shape maskB p with
    | .error e => .error e
    | .ok b =>
      match lookupAll3 shape maskB ps with
      | .error e => .error e
      | .ok bs => .ok (b :: bs)

/-- The source walks inDAPI_points, replacing each True entry with the
    next value of test (the inx counter). -/
def mergeWalk : List Bool → List Bool → List Bool
  | [], _ => []
  | b :: bs, ts =>
    if b then ts.headD false :: mergeWalk bs ts.tail else b :: mergeWalk bs ts

/-- Step 'spots in DAPI as inliers' of the 3D branch: molecules whose mask
    voxel reads True get is_noise forced to 0, all others keep their flag. -/
def maskOverride3 (shape : ℕ × ℕ × ℕ) (maskB : ℕ → ℕ → ℕ → Bool)
    (pts : List Pt3) (flags : List ℤ) : Except PErr (List ℤ) :=
  match lookupAll3 shape maskB (pts.filter fun p => inDapi3 shape p) with
  | .error e => .error e
  | .ok ts =>
    .ok (List.zipWith (fun b f => if b then 0 else f)
      (mergeWalk (pts.map fun p => inDapi3 shape p) ts) flags)

/-- spots.loc[y_pred == -1, 'is_noise'] = -1 for the outlier mask y_pred
    produced by the LocalOutlierFactor oracle. -/
def applyLof (preds : List Bool) (flags : List ℤ) : List ℤ :=
  flags.mapIdx fun i f => if preds.getD i false then -1 else f

/-! ## The 3D denoiser pipeline (preprocessing_data, 3D branch) -/

/-- dis_neighbors of the 3D branch: the density score of every molecule
    against the combined point set (molecule locations ++ dapi samples). -/
def denoiserScores3 (spots : List Spot3) (dapiC : List Pt3) (xy : ℤ) : List ℤ :=
  (spots.map spotsArray3).map fun q =>
    denoiserScore3 (spots.map spotsArray3 ++ dapiC) q xy

/-- is_noise after the low-density filter: -1 where score < threshold
    (the threshold tn / td compared exactly via score * td < tn), else 0. -/
def noiseFlags (scores : List ℤ) (t : ℤ × ℤ) : List ℤ :=
  scores.map fun sc => if sc * t.2 < t.1 then (-1 : ℤ) else 0

/-- The optional LOF pass: flags the oracle's outliers as noise. -/
def lofFlags (lof : Bool) (preds : List Bool) (flags : List ℤ) : List ℤ :=
  if lof then applyLof preds flags else flags

/-- Last stage of preprocessing_data: the mask override, then write the
    final flags into the is_noise column of the table. -/
def denoiserFinish3 (spots : List Spot3) (shape : ℕ × ℕ × ℕ)
    (maskB : ℕ → ℕ → ℕ → Bool) (flags2 : List ℤ) : Except PErr (List Spot3) :=
  match maskOverride3 shape maskB (spots.map spotsArray3) flags2 with
  | .error e => .error e
  | .ok flags3 =>
    .ok (List.zipWith (fun s f => Spot3.mk s.loc1 s.loc2 s.loc3 s.gene f)
      spots flags3)

/-- preprocessing_data after a successful background sampling: fit the
    combined set, score, threshold at the percentile, optional LOF, mask
    override. -/
def denoiserMain3 (spots : List Spot3) (dapiC : List Pt3) (shape : ℕ × ℕ × ℕ)
    (maskB : ℕ → ℕ → ℕ → Bool) (lof : Bool) (oracle : List Pt3 → List Bool)
    (xy : ℤ) (pct : ℚ) : Except PErr (List Spot3) :=
  if (spots.map spotsArray3 ++ dapiC).length = 0 then
    .error .fitEmpty
  else
    match npPercentile100 (denoiserScores3 spots dapiC xy) pct with
    | .error e => .error e
    | .ok t =>
      denoiserFinish3 spots shape maskB
        (lofFlags lof (oracle (spots.map spotsArray3))
          (noiseFlags (denoiserScores3 spots dapiC xy) t))

/-- preprocessing_data for a 3-axis mask.  The oracle argument stands for
    LocalOutlierFactor(...).fit_predict == -1, an external library call. -/
def preprocessing_data3 (spots : List Spot3) (g : ℕ) (shape : ℕ × ℕ × ℕ)
    (maskB : ℕ → ℕ → ℕ → Bool) (lof : Bool) (oracle : List Pt3 → List Bool)
    (xy : ℤ) (pct : ℚ) : Except PErr (List Spot3) :=
  match dapiCoord3 shape g maskB with
  | .error e => .error e
  | .ok dapiC => denoiserMain3 spots dapiC shape maskB lof oracle xy pct

/-- The preprocess wrapper: it forwards to preprocessing_data with the
    default dapi_grid_interval=5, LOF=False and performs no validation of
    its own (its Python original returns None, relying on mutation; the
    embedding passes the table state explicitly). -/
def preprocess3 (spots : List Spot3) (shape : ℕ × ℕ × ℕ)
    (maskB : ℕ → ℕ → ℕ → Bool) (xy : ℤ) (pct : ℚ) : Except PErr (List Spot3) :=
  preprocessing_data3 spots 5 shape maskB false (fun _ => []) xy pct

/-! ## NGC (3D) -/

/-- radius = max(xy_radius, z_radius). -/
def ngcRadius (xy z : ℤ) : ℤ := max xy z

/-- smaller_radius = z_radius if radius == xy_radius else xy_radius. -/
def smallerRadius (xy z : ℤ) : ℤ := if ngcRadius xy z = xy then z else xy

/-- The 3D NGC neighbor list of molecule t: the radius query at
    max(xy_radius, z_radius) followed by the depth filter
    X_data[i, 2] - X_data[indi, 2] <= smaller_radius (note: no absolute
    value in the source). -/
def ngcNeighbors3 (spots : List Spot3) (t : Spot3) (xy z : ℤ) : List Spot3 :=
  ((spots.filter fun s => withinRadius (ngcRadius xy z) (sqDist3 (xData3 s) (xData3 t))).filter
    fun s => decide (s.loc3 - t.loc3 ≤ smallerRadius xy z))

/-- The neighbor predicate the spec claims for 3D NGC: distance at most
    max of the radii and |depth offset| at most min of the radii.  Stated
    from the spec wording, to be compared against ngcNeighbors3. -/
def specNgcNeighborB (s t : Spot3) (xy z : ℤ) : Bool :=
  withinRadius (max xy z) (sqDist3 (xData3 s) (xData3 t)) &&
    decide (|s.loc3 - t.loc3| ≤ min xy z)

/-- Cast into dtype int8: reduce modulo 2^8 into [-128, 127]. -/
def toInt8 (n : ℕ) : ℤ := ((n : ℤ) + 128) % 256 - 128

/-- spots.loc[neighbors_i, :].groupby('gene').size() at gene g: the number
    of neighbors (self included) carrying gene id g. -/
def ngcGeneCount (spots : List Spot3) (t : Spot3) (xy z : ℤ) (g : ℕ) : ℕ :=
  List.count g ((ngcNeighbors3 spots t xy z).map Spot3.gene)

/-- Entry of the int8 NGC matrix at column c; with gene_list = [1..G] the
    column of gene g is g - min(gene_list) = g - 1, so column c stores the
    int8-cast count of gene c + 1. -/
def ngcRowEntry (spots : List Spot3) (t : Spot3) (xy z : ℤ) (c : ℕ) : ℤ :=
  toInt8 (ngcGeneCount spots t xy z (c + 1))

/-- Row sum of the stored NGC matrix row of molecule t over the G gene
    columns. -/
def ngcRowSum (spots : List Spot3) (t : Spot3) (xy z : ℤ) (G : ℕ) : ℤ :=
  ∑ c ∈ Finset.range G, ngcRowEntry spots t xy z c

/-! ## binarize_dapi, fast_preprocess=False, 3D branch -/

/-- Clamp an integer index into [0, n-1] (border handling of the
    morphological window; for the 5x5 / 3x3 windows used here the clamped
    index set equals scipy's reflected one). -/
def clampIdx (n : ℕ) (x : ℤ) : ℕ := (max 0 (min x ((n : ℤ) - 1))).toNat

/-- Offsets of the square(5) structuring element. -/
def win5 : List (ℤ × ℤ) :=
  [(-2, -2), (-2, -1), (-2, 0), (-2, 1), (-2, 2),
   (-1, -2), (-1, -1), (-1, 0), (-1, 1), (-1, 2),
   (0, -2), (0, -1), (0, 0), (0, 1), (0, 2),
   (1, -2), (1, -1), (1, 0), (1, 1), (1, 2),
   (2, -2), (2, -1), (2, 0), (2, 1), (2, 2)]

/-- Offsets of the full-connectivity 3x3 footprint of reconstruction. -/
def win3 : List (ℤ × ℤ) :=
  [(-1, -1), (-1, 0), (-1, 1), (0, -1), (0, 0), (0, 1), (1, -1), (1, 0), (1, 1)]

/-- Grayscale erosion with square(5): minimum over the 5x5 window. -/
def erosion5 (h w : ℕ) (pix : ℕ → ℕ → ℤ) (i j : ℕ) : ℤ :=
  (win5.map fun o => pix (clampIdx h ((i : ℤ) + o.1)) (clampIdx w ((j : ℤ) + o.2))).foldr
    min (pix i j)

/-- Grayscale dilation with the 3x3 footprint: maximum over the window. -/
def dilate3 (h w : ℕ) (pix : ℕ → ℕ → ℤ) (i j : ℕ) : ℤ :=
  (win3.map fun o => pix (clampIdx h ((i : ℤ) + o.1)) (clampIdx w ((j : ℤ) + o.2))).foldr
    max (pix i j)

/-- One geodesic dilation step of morphological reconstruction: dilate the
    marker, then cap it with the mask image. -/
def reconStep (h w : ℕ) (maskI : ℕ → ℕ → ℤ) (r : ℕ → ℕ → ℤ) : ℕ → ℕ → ℤ :=
  fun i j => min (dilate3 h w r i j) (maskI i j)

/-- reconstruction(marker, mask) by dilation: iterate the geodesic step to
    its fixpoint (h * w steps bound the propagation length of any simple
    path on the slice, so they reach the fixpoint). -/
def reconstructIm (h w : ℕ) (marker maskI : ℕ → ℕ → ℤ) : ℕ → ℕ → ℤ :=
  (reconStep h w maskI)^[h * w] marker

/-- All pixel values of a slice, row-major. -/
def imgList (h w : ℕ) (pix : ℕ → ℕ → ℤ) : List ℤ :=
  (List.range h).flatMap fun i => (List.range w).map fun j => pix i j

/-- len(np.unique(slice)): the number of distinct intensities. -/
def uniqueCount (h w : ℕ) (pix : ℕ → ℕ → ℤ) : ℕ :=
  (imgList h w pix).dedup.length

/-- Exact model of skimage threshold_otsu on an integer slice: the
    candidate threshold (taken among the distinct values, all but the
    largest) maximizing the inter-class variance
    n1 * n2 * (mean1 - mean2)^2 of the split into values <= t and > t;
    the first maximizer wins.  (Unreachable for slices the degenerate
    guard diverts; kept total with fallback 0.) -/
def otsuThreshold (h w : ℕ) (pix : ℕ → ℕ → ℤ) : ℤ :=
  let vals := sortInts (imgList h w pix).dedup
  let xs := imgList h w pix
  let score : ℤ → ℚ := fun t =>
    let below := xs.filter fun v => decide (v ≤ t)
    let above := xs.filter fun v => decide (t < v)
    let n1 : ℚ := (below.length : ℚ)
    let n2 : ℚ := (above.length : ℚ)
    if n1 = 0 ∨ n2 = 0 then 0
    else n1 * n2 * ((below.map (fun v => (v : ℚ))).sum / n1 -
      (above.map (fun v => (v : ℚ))).sum / n2) ^ 2
  match vals.dropLast with
  | [] => 0
  | c :: cs =>
    (cs.foldl (fun best t => if score best < score t then t else best) c)

/-- The threshold the 3D slow branch applies to a reconstructed slice:
    0 when the slice has fewer than two distinct values (Otsu would be
    undefined), threshold_otsu otherwise. -/
def sliceThresh (h w : ℕ) (pix : ℕ → ℕ → ℤ) : ℤ :=
  if uniqueCount h w pix < 2 then 0 else otsuThreshold h w pix

/-- dapi_recon of slice t: reconstruction of the eroded slice under the
    slice. -/
def reconSlice (h w : ℕ) (pix : ℕ → ℕ → ℕ → ℤ) (t : ℕ) : ℕ → ℕ → ℤ :=
  reconstructIm h w (erosion5 h w (fun a b => pix a b t)) (fun a b => pix a b t)

/-- binarize_dapi with fast_preprocess=False, gauss_blur=False on a 3D
    volume of shape (h, w, d) sliced along the last axis: per slice,
    erosion, reconstruction, degenerate-guarded Otsu, binary = recon >=
    thresh; finally dapi_binary[dapi == 0] = False. -/
def binarize_dapi3 (h w d : ℕ) (pix : ℕ → ℕ → ℕ → ℤ) : ℕ → ℕ → ℕ → Bool :=
  fun i j t =>
    decide (sliceThresh h w (reconSlice h w pix t) ≤ reconSlice h w pix t i j) &&
      decide (pix i j t ≠ 0)

/-! ## Instances and helper lemmas -/

deriving instance DecidableEq for Except

lemma sqDist3_nonneg (p q : Pt3) : 0 ≤ sqDist3 p q := by
  unfold sqDist3
  have h1 := mul_self_nonneg (p.1 - q.1)
  have h2 := mul_self_nonneg (p.2.1 - q.2.1)
  have h3 := mul_self_nonneg (p.2.2 - q.2.2)
  linarith

lemma sqDist2_nonneg (p q : Pt2) : 0 ≤ sqDist2 p q := by
  unfold sqDist2
  have h1 := mul_self_nonneg (p.1 - q.1)
  have h2 := mul_self_nonneg (p.2 - q.2)
  linarith

/-- The sklearn radius test dist(p,q) <= r over the reals is exactly the
    integer test withinRadius on the squared distance. -/
lemma sqrt_le_radius_iff (r d2 : ℤ) :
    Real.sqrt ((d2 : ℤ) : ℝ) ≤ ((r : ℤ) : ℝ) ↔ withinRadius r d2 = true := by
  rw [Real.sqrt_le_iff, withinRadius]
  simp only [Bool.and_eq_true, decide_eq_true_eq]
  constructor
  · rintro ⟨h1, h2⟩
    refine ⟨by exact_mod_cast h1, ?_⟩
    have h3 : ((d2 : ℤ) : ℝ) ≤ ((r : ℤ) : ℝ) * ((r : ℤ) : ℝ) := by rw [← sq]; exact h2
    exact_mod_cast h3
  · rintro ⟨h1, h2⟩
    refine ⟨by exact_mod_cast h1, ?_⟩
    rw [sq]
    exact_mod_cast h2

lemma smallerRadius_eq_min (xy z : ℤ) : smallerRadius xy z = min xy z := by
  unfold smallerRadius ngcRadius
  rcases le_total z xy with h | h
  · rw [max_eq_left h, if_pos rfl, min_eq_right h]
  · rcases eq_or_lt_of_le h with rfl | hlt
    · simp
    · rw [max_eq_right h, min_eq_left h, if_neg (by omega)]

/-! ## C1 -/

/-- C1 (amended): in the denoiser, the 2D radius query keeps exactly the
    combined points within Euclidean distance planar_radius of the
    molecule; the 3D query keeps exactly the points within Euclidean
    distance planar_radius * 2 — a sphere, with no depth-axis pruning and
    no use of the depth radius. -/
theorem C1_denoiser_radius (pts3 : List Pt3) (q3 p3 : Pt3) (xy : ℤ)
    (pts2 : List Pt2) (q2 p2 : Pt2) :
    (p3 ∈ denoiserNeighbors3 pts3 q3 xy ↔
      p3 ∈ pts3 ∧ Real.sqrt ((sqDist3 p3 q3 : ℤ) : ℝ) ≤ ((xy : ℤ) : ℝ) * 2) ∧
    (p2 ∈ denoiserNeighbors2 pts2 q2 xy ↔
      p2 ∈ pts2 ∧ Real.sqrt ((sqDist2 p2 q2 : ℤ) : ℝ) ≤ ((xy : ℤ) : ℝ)) := by
  constructor
  · rw [denoiserNeighbors3, List.mem_filter, ← sqrt_le_radius_iff (xy * 2)]
    have hc : ((xy * 2 : ℤ) : ℝ) = ((xy : ℤ) : ℝ) * 2 := by push_cast; ring
    rw [hc]
  · rw [denoiserNeighbors2, List.mem_filter, ← sqrt_le_radius_iff xy]

/-- C1 counterexample: with planar_radius 10 and depth_radius 7, the point
    (15,0,0) is at distance 15 from the molecule (0,0,0): the source keeps
    it (15 <= 2 * 10) whereas the claimed query (radius max(10,7) = 10 with
    depth pruning) rejects it. -/
theorem C1_cx :
    denoiserNeighbors3 [((0, 0, 0) : Pt3), (15, 0, 0)] (0, 0, 0) 10 ≠
      specDenoiserNeighbors3 [((0, 0, 0) : Pt3), (15, 0, 0)] (0, 0, 0) 10 7 := by
  decide

/-! ## C2 -/

/-- C2 (amended): the 3D density score (ii * ii).sum(0) computed from the
    real distance list equals the exact integer sum of squared neighbor
    distances, and the molecule itself is always one of its own neighbors
    (at distance 0) when the radius is nonnegative; the 2D score ii.sum(0)
    is the sum of the UNsquared distances (see the counterexample for the
    failure of the squared form in 2D). -/
theorem C2_density_score (pts3 : List Pt3) (q3 : Pt3) (xy : ℤ) (h : 0 ≤ xy) :
    disNeighborR3 pts3 q3 xy = ((denoiserScore3 pts3 q3 xy : ℤ) : ℝ) ∧
    (q3 ∈ pts3 → q3 ∈ denoiserNeighbors3 pts3 q3 xy) ∧
    ∀ (pts2 : List Pt2) (q2 : Pt2),
      disNeighborR2 pts2 q2 xy =
        ((denoiserNeighbors2 pts2 q2 xy).map fun p =>
          Real.sqrt ((sqDist2 p q2 : ℤ) : ℝ)).sum ∧
      (q2 ∈ pts2 → q2 ∈ denoiserNeighbors2 pts2 q2 xy) := by
  refine ⟨?_, ?_, ?_⟩
  · unfold disNeighborR3 neighDistR3 denoiserScore3
    rw [List.map_map, Int.cast_list_sum, List.map_map]
    refine congrArg List.sum (List.map_congr_left ?_)
    intro p hp
    simp only [Function.comp_apply]
    exact Real.mul_self_sqrt (by exact_mod_cast sqDist3_nonneg p q3)
  · intro hq
    rw [denoiserNeighbors3, List.mem_filter]
    refine ⟨hq, ?_⟩
    have h0 : sqDist3 q3 q3 = 0 := by unfold sqDist3; ring
    rw [h0, withinRadius]
    simp only [Bool.and_eq_true, decide_eq_true_eq]
    exact ⟨by omega, mul_self_nonneg _⟩
  · intro pts2 q2
    refine ⟨rfl, ?_⟩
    intro hq
    rw [denoiserNeighbors2, List.mem_filter]
    refine ⟨hq, ?_⟩
    have h0 : sqDist2 q2 q2 = 0 := by unfold sqDist2; ring
    rw [h0, withinRadius]
    simp only [Bool.and_eq_true, decide_eq_true_eq]
    exact ⟨h, mul_self_nonneg _⟩

/-- C2 witness: the amended statement evaluated at one molecule at the
    origin with radius 1. -/
theorem C2_witness :
    disNeighborR3 [((0, 0, 0) : Pt3)] (0, 0, 0) 1 =
      ((denoiserScore3 [((0, 0, 0) : Pt3)] (0, 0, 0) 1 : ℤ) : ℝ) ∧
    ((0, 0, 0) : Pt3) ∈ denoiserNeighbors3 [((0, 0, 0) : Pt3)] (0, 0, 0) 1 := by
  have h := C2_density_score [((0, 0, 0) : Pt3)] (0, 0, 0) 1 (by decide)
  exact ⟨h.1, h.2.1 (by decide)⟩

/-- C2 counterexample: in the 2D branch the score of a molecule at (0,0)
    with the sole other point at (0,2) and radius 2 is 0 + 2 = 2, the sum
    of plain distances, not the claimed sum of squared distances 0 + 4. -/
theorem C2_cx :
    disNeighborR2 [((0, 0) : Pt2), (0, 2)] (0, 0) 2 ≠
      ((((denoiserNeighbors2 [((0, 0) : Pt2), (0, 2)] (0, 0) 2).map fun p =>
        sqDist2 p (0, 0)).sum : ℤ) : ℝ) := by
  have hl : denoiserNeighbors2 [((0, 0) : Pt2), (0, 2)] (0, 0) 2 = [(0, 0), (0, 2)] := by
    decide
  have h0 : sqDist2 ((0, 0) : Pt2) (0, 0) = 0 := by decide
  have h4 : sqDist2 ((0, 2) : Pt2) (0, 0) = 4 := by decide
  have hs4 : Real.sqrt ((4 : ℤ) : ℝ) = 2 := by
    rw [show ((4 : ℤ) : ℝ) = (2 : ℝ) ^ 2 by norm_num]
    exact Real.sqrt_sq (by norm_num)
  unfold disNeighborR2 neighDistR2
  rw [hl]
  simp only [List.map_cons, List.map_nil, List.sum_cons, List.sum_nil, h0, h4, hs4]
  rw [show ((0 : ℤ) : ℝ) = (0 : ℝ) by norm_num, Real.sqrt_zero]
  push_cast
  norm_num

/-! ## C3 -/

/-- C3 (amended): in 3D NGC, molecule s is a neighbor of molecule t iff
    its Euclidean distance from t is at most max(xy_radius, z_radius) and
    its depth offset satisfies the ONE-SIDED bound
    s.loc3 - t.loc3 <= min(xy_radius, z_radius): the depth window is not
    symmetric — neighbors arbitrarily far below t in depth (within the
    ball) are kept. -/
theorem C3_ngc_neighbor (spots : List Spot3) (t s : Spot3) (xy z : ℤ) :
    s ∈ ngcNeighbors3 spots t xy z ↔
      s ∈ spots ∧
        Real.sqrt ((sqDist3 (xData3 s) (xData3 t) : ℤ) : ℝ) ≤ ((max xy z : ℤ) : ℝ) ∧
        s.loc3 - t.loc3 ≤ min xy z := by
  rw [ngcNeighbors3, List.mem_filter, List.mem_filter, smallerRadius_eq_min]
  unfold ngcRadius
  rw [← sqrt_le_radius_iff (max xy z)]
  simp only [decide_eq_true_eq]
  tauto

/-- C3 counterexample: with xy_radius 10, z_radius 7, the molecule at
    (0,0,-9) is kept as a neighbor of (0,0,0) by the source (distance 9,
    depth offset -9 <= 7) although its absolute depth offset 9 exceeds the
    smaller radius 7, so the claimed symmetric-window predicate rejects it. -/
theorem C3_cx :
    (⟨0, 0, -9, 1, 0⟩ : Spot3) ∈
        ngcNeighbors3 [⟨0, 0, 0, 1, 0⟩, ⟨0, 0, -9, 1, 0⟩] ⟨0, 0, 0, 1, 0⟩ 10 7 ∧
      specNgcNeighborB (⟨0, 0, -9, 1, 0⟩ : Spot3) ⟨0, 0, 0, 1, 0⟩ 10 7 = false := by
  exact ⟨by decide, by decide⟩

/-! ## int8 storage lemmas -/

lemma toInt8_spec (n : ℕ) :
    -128 ≤ toInt8 n ∧ toInt8 n ≤ 127 ∧ (toInt8 n - (n : ℤ)) % 256 = 0 := by
  unfold toInt8
  omega

lemma toInt8_eq_self (n : ℕ) (h : n ≤ 127) : toInt8 n = (n : ℤ) := by
  unfold toInt8
  omega

lemma ngcNeighbors3_subset {spots : List Spot3} {t s : Spot3} {xy z : ℤ}
    (h : s ∈ ngcNeighbors3 spots t xy z) : s ∈ spots :=
  (List.mem_filter.mp (List.mem_filter.mp h).1).1

/-! ## C10 -/

/-- C10: the NGC matrix is stored with dtype int8, so the entry of
    molecule t at column c is the true per-gene neighbor count reduced
    modulo 2^8 into [-128, 127]; whenever the true count exceeds 127 the
    stored value differs from it. -/
theorem C10_int8_storage (spots : List Spot3) (t : Spot3) (xy z : ℤ) (c : ℕ) :
    -128 ≤ ngcRowEntry spots t xy z c ∧ ngcRowEntry spots t xy z c ≤ 127 ∧
    (ngcRowEntry spots t xy z c - (ngcGeneCount spots t xy z (c + 1) : ℤ)) % 256 = 0 ∧
    (127 < ngcGeneCount spots t xy z (c + 1) →
      ngcRowEntry spots t xy z c ≠ (ngcGeneCount spots t xy z (c + 1) : ℤ)) := by
  unfold ngcRowEntry
  have h := toInt8_spec (ngcGeneCount spots t xy z (c + 1))
  refine ⟨h.1, h.2.1, h.2.2, ?_⟩
  intro hc
  have h127 := h.2.1
  omega

/-- 129 molecules stacked at the origin, all of gene 1. -/
def spots129 : List Spot3 := List.replicate 129 ⟨0, 0, 0, 1, 0⟩

set_option maxRecDepth 8000 in
/-- C10 witness: with 129 co-located molecules of gene 1, the stored entry
    is in range yet differs from the true count 129. -/
theorem C10_witness :
    -128 ≤ ngcRowEntry spots129 ⟨0, 0, 0, 1, 0⟩ 1 1 0 ∧
    ngcRowEntry spots129 ⟨0, 0, 0, 1, 0⟩ 1 1 0 ≠
      (ngcGeneCount spots129 ⟨0, 0, 0, 1, 0⟩ 1 1 1 : ℤ) := by
  have h := C10_int8_storage spots129 ⟨0, 0, 0, 1, 0⟩ 1 1 0
  exact ⟨h.1, h.2.2.2 (by decide)⟩

/-! ## C4 -/

lemma sum_count_genes (l : List ℕ) (G : ℕ) (hg : ∀ g ∈ l, 1 ≤ g ∧ g ≤ G) :
    ∑ c ∈ Finset.range G, List.count (c + 1) l = l.length := by
  induction l with
  | nil => simp
  | cons a l ih =>
    have ha := hg a (by simp)
    have hl : ∀ g ∈ l, 1 ≤ g ∧ g ≤ G := fun g hgl => hg g (by simp [hgl])
    simp only [List.count_cons, List.length_cons]
    rw [Finset.sum_add_distrib, ih hl]
    have h1 : ∀ c ∈ Finset.range G,
        (if (a == c + 1) = true then (1 : ℕ) else 0) = (if c = a - 1 then 1 else 0) := by
      intro c _
      rcases eq_or_ne a (c + 1) with h | h
      · rw [if_pos (by simpa using h), if_pos (by omega)]
      · rw [if_neg (by simpa using h), if_neg (by omega)]
    rw [Finset.sum_congr rfl h1, Finset.sum_ite_eq' (Finset.range G) (a - 1) (fun _ => 1),
      if_pos (Finset.mem_range.mpr (by omega))]

/-- C4 (amended): provided every per-gene neighbor count of molecule t
    fits the int8 range (at most 127), its NGC row is exactly the per-gene
    histogram of its neighbor set: column c holds the count of gene c + 1,
    and the row sum over the G gene columns equals the neighbor-set size.
    (Without that proviso the stored entries are the counts reduced into
    int8, see the counterexample and C10.) -/
theorem C4_ngc_histogram (spots : List Spot3) (t : Spot3) (xy z : ℤ) (G : ℕ)
    (hg : ∀ s ∈ spots, 1 ≤ s.gene ∧ s.gene ≤ G)
    (hc : ∀ c < G, ngcGeneCount spots t xy z (c + 1) ≤ 127) :
    (∀ c < G, ngcRowEntry spots t xy z c = (ngcGeneCount spots t xy z (c + 1) : ℤ)) ∧
    ngcRowSum spots t xy z G = ((ngcNeighbors3 spots t xy z).length : ℤ) := by
  have hent : ∀ c < G, ngcRowEntry spots t xy z c =
      (ngcGeneCount spots t xy z (c + 1) : ℤ) := by
    intro c hcG
    unfold ngcRowEntry
    exact toInt8_eq_self _ (hc c hcG)
  refine ⟨hent, ?_⟩
  unfold ngcRowSum
  rw [Finset.sum_congr rfl (fun c hcG => hent c (Finset.mem_range.mp hcG))]
  have hgl : ∀ g ∈ (ngcNeighbors3 spots t xy z).map Spot3.gene, 1 ≤ g ∧ g ≤ G := by
    intro g hgm
    obtain ⟨s, hs, rfl⟩ := List.mem_map.mp hgm
    exact hg s (ngcNeighbors3_subset hs)
  have hsum := sum_count_genes ((ngcNeighbors3 spots t xy z).map Spot3.gene) G hgl
  rw [List.length_map] at hsum
  rw [← Nat.cast_inj (R := ℤ)] at hsum
  push_cast at hsum ⊢
  rw [← hsum]
  rfl

/-- C4 witness: one molecule of gene 1, vocabulary size 1. -/
theorem C4_witness :
    (∀ c < 1, ngcRowEntry [⟨0, 0, 0, 1, 0⟩] ⟨0, 0, 0, 1, 0⟩ 1 1 c =
      (ngcGeneCount [⟨0, 0, 0, 1, 0⟩] ⟨0, 0, 0, 1, 0⟩ 1 1 (c + 1) : ℤ)) ∧
    ngcRowSum [⟨0, 0, 0, 1, 0⟩] ⟨0, 0, 0, 1, 0⟩ 1 1 1 =
      ((ngcNeighbors3 [⟨0, 0, 0, 1, 0⟩] ⟨0, 0, 0, 1, 0⟩ 1 1).length : ℤ) :=
  C4_ngc_histogram [⟨0, 0, 0, 1, 0⟩] ⟨0, 0, 0, 1, 0⟩ 1 1 1 (by decide) (by decide)

set_option maxRecDepth 8000 in
/-- C4 counterexample: 129 co-located molecules of gene 1 have a neighbor
    set of size 129, but the int8 matrix stores -127 in the gene-1 column,
    so the row is not the histogram and its sum is not the neighbor count. -/
theorem C4_cx :
    ngcRowEntry spots129 ⟨0, 0, 0, 1, 0⟩ 1 1 0 = -127 ∧
    ngcGeneCount spots129 ⟨0, 0, 0, 1, 0⟩ 1 1 1 = 129 ∧
    ngcRowSum spots129 ⟨0, 0, 0, 1, 0⟩ 1 1 1 ≠
      ((ngcNeighbors3 spots129 ⟨0, 0, 0, 1, 0⟩ 1 1).length : ℤ) := by
  exact ⟨by decide, by decide, by decide⟩

/-! ## C5 -/

lemma ngcKeep_mono {xy z xy2 z2 d2 dz : ℤ} (hxy : 0 ≤ xy) (hz : 0 ≤ z)
    (h1 : xy ≤ xy2) (h2 : z ≤ z2)
    (hd : withinRadius (ngcRadius xy z) d2 = true)
    (hdz : decide (dz ≤ smallerRadius xy z) = true) :
    withinRadius (ngcRadius xy2 z2) d2 = true ∧
      decide (dz ≤ smallerRadius xy2 z2) = true := by
  rw [smallerRadius_eq_min] at hdz ⊢
  unfold ngcRadius at hd ⊢
  simp only [withinRadius, Bool.and_eq_true, decide_eq_true_eq] at hd hdz ⊢
  obtain ⟨hr, hdist⟩ := hd
  have hmax : max xy z ≤ max xy2 z2 := max_le_max h1 h2
  have hmax0 : 0 ≤ max xy z := le_max_of_le_left hxy
  have hmin : min xy z ≤ min xy2 z2 := min_le_min h1 h2
  refine ⟨⟨by omega, ?_⟩, by omega⟩
  calc d2 ≤ max xy z * max xy z := hdist
    _ ≤ max xy2 z2 * max xy2 z2 :=
      mul_le_mul hmax hmax hmax0 (le_trans hmax0 hmax)

lemma ngcGeneCount_mono (spots : List Spot3) (t : Spot3) (g : ℕ) {xy z xy2 z2 : ℤ}
    (hxy : 0 ≤ xy) (hz : 0 ≤ z) (h1 : xy ≤ xy2) (h2 : z ≤ z2) :
    ngcGeneCount spots t xy z g ≤ ngcGeneCount spots t xy2 z2 g := by
  unfold ngcGeneCount ngcNeighbors3
  rw [List.filter_filter, List.filter_filter, List.count_eq_countP,
    List.count_eq_countP, List.countP_map, List.countP_map,
    List.countP_filter, List.countP_filter]
  apply List.countP_mono_left
  intro s _ hs
  simp only [Function.comp_apply, Bool.and_eq_true] at hs ⊢
  have hgene := hs.1
  have hdz := hs.2.1
  have hd := hs.2.2
  have hm := ngcKeep_mono hxy hz h1 h2 hd hdz
  exact ⟨hgene, hm.2, hm.1⟩

lemma ngcRowSum_mono (spots : List Spot3) (t : Spot3) {xy z xy2 z2 : ℤ} {G : ℕ}
    (hxy : 0 ≤ xy) (hz : 0 ≤ z) (h1 : xy ≤ xy2) (h2 : z ≤ z2)
    (hc2 : ∀ c < G, ngcGeneCount spots t xy2 z2 (c + 1) ≤ 127) :
    ngcRowSum spots t xy z G ≤ ngcRowSum spots t xy2 z2 G := by
  unfold ngcRowSum
  apply Finset.sum_le_sum
  intro c hcG
  have hm := ngcGeneCount_mono spots t (c + 1) hxy hz h1 h2
  have hb2 := hc2 c (Finset.mem_range.mp hcG)
  have hb1 : ngcGeneCount spots t xy z (c + 1) ≤ 127 := le_trans hm hb2
  unfold ngcRowEntry
  rw [toInt8_eq_self _ hb1, toInt8_eq_self _ hb2]
  exact_mod_cast hm

/-- C5 (amended): for nonnegative radii, provided every per-gene neighbor
    count at the largest scale 5R stays within the int8 range (at most
    127), the NGC row sums are non-decreasing along the scales R, 3R, 5R,
    because the neighbor sets are nested.  (Without the int8 proviso the
    row sum can DECREASE with the radius, see the counterexample.) -/
theorem C5_rowsum_monotone (spots : List Spot3) (t : Spot3) (xy z : ℤ) (G : ℕ)
    (hxy : 0 ≤ xy) (hz : 0 ≤ z)
    (hc : ∀ c < G, ngcGeneCount spots t (5 * xy) (5 * z) (c + 1) ≤ 127) :
    ngcRowSum spots t xy z G ≤ ngcRowSum spots t (3 * xy) (3 * z) G ∧
    ngcRowSum spots t (3 * xy) (3 * z) G ≤ ngcRowSum spots t (5 * xy) (5 * z) G := by
  have hc3 : ∀ c < G, ngcGeneCount spots t (3 * xy) (3 * z) (c + 1) ≤ 127 := by
    intro c hcG
    exact le_trans
      (ngcGeneCount_mono spots t (c + 1) (by linarith) (by linarith) (by linarith)
        (by linarith)) (hc c hcG)
  exact ⟨ngcRowSum_mono spots t hxy hz (by linarith) (by linarith) hc3,
    ngcRowSum_mono spots t (by linarith) (by linarith) (by linarith) (by linarith) hc⟩

/-- C5 witness: one molecule of gene 1, radii 1, vocabulary size 1. -/
theorem C5_witness :
    ngcRowSum [⟨0, 0, 0, 1, 0⟩] ⟨0, 0, 0, 1, 0⟩ 1 1 1 ≤
      ngcRowSum [⟨0, 0, 0, 1, 0⟩] ⟨0, 0, 0, 1, 0⟩ (3 * 1) (3 * 1) 1 ∧
    ngcRowSum [⟨0, 0, 0, 1, 0⟩] ⟨0, 0, 0, 1, 0⟩ (3 * 1) (3 * 1) 1 ≤
      ngcRowSum [⟨0, 0, 0, 1, 0⟩] ⟨0, 0, 0, 1, 0⟩ (5 * 1) (5 * 1) 1 :=
  C5_rowsum_monotone [⟨0, 0, 0, 1, 0⟩] ⟨0, 0, 0, 1, 0⟩ 1 1 1 (by decide) (by decide)
    (by decide)

/-- One molecule at the origin plus 127 molecules at distance 2, gene 1. -/
def spots128 : List Spot3 := ⟨0, 0, 0, 1, 0⟩ :: List.replicate 127 ⟨2, 0, 0, 1, 0⟩

set_option maxRecDepth 8000 in
/-- C5 counterexample: at radius pair (1,1) the origin molecule has row
    sum 1 (only itself); at the tripled pair (3,3) its 128 neighbors of
    gene 1 overflow the int8 column to -128, so the row sum DECREASES
    from 1 to -128, refuting monotonicity as claimed. -/
theorem C5_cx :
    ngcRowSum spots128 ⟨0, 0, 0, 1, 0⟩ (3 * 1) (3 * 1) 1 <
      ngcRowSum spots128 ⟨0, 0, 0, 1, 0⟩ 1 1 1 := by
  decide

/-! ## C6 -/

lemma pyIndex_ok {s : ℕ} {x : ℤ} (hup : x < (s : ℤ)) (hlow : -(s : ℤ) ≤ x) :
    pyIndex s x = .ok (wrapIdx s x) := by
  unfold pyIndex wrapIdx
  by_cases h0 : 0 ≤ x
  · rw [if_pos h0, if_pos hup, if_pos h0]
  · rw [if_neg h0, if_pos (by omega), if_neg h0]

lemma maskLookup3_ok {shape : ℕ × ℕ × ℕ} {maskB : ℕ → ℕ → ℕ → Bool} {p : Pt3}
    (hin : inDapi3 shape p = true)
    (hlow : 1 - (shape.1 : ℤ) ≤ p.1 ∧ 1 - (shape.2.1 : ℤ) ≤ p.2.1 ∧
      1 - (shape.2.2 : ℤ) ≤ p.2.2) :
    maskLookup3 shape maskB p = .ok (maskWrap3 shape maskB p) := by
  simp only [inDapi3, Bool.and_eq_true, decide_eq_true_eq] at hin
  unfold maskLookup3 maskWrap3
  rw [pyIndex_ok (by omega) (by omega), pyIndex_ok (by omega) (by omega),
    pyIndex_ok (by omega) (by omega)]

lemma lookupAll3_filter_ok (shape : ℕ × ℕ × ℕ) (maskB : ℕ → ℕ → ℕ → Bool)
    (pts : List Pt3)
    (hv : ∀ p ∈ pts, inDapi3 shape p = true →
      1 - (shape.1 : ℤ) ≤ p.1 ∧ 1 - (shape.2.1 : ℤ) ≤ p.2.1 ∧
        1 - (shape.2.2 : ℤ) ≤ p.2.2) :
    lookupAll3 shape maskB (pts.filter fun p => inDapi3 shape p) =
      .ok ((pts.filter fun p => inDapi3 shape p).map (maskWrap3 shape maskB)) := by
  induction pts with
  | nil => rfl
  | cons p rest ih =>
    have hvrest : ∀ q ∈ rest, inDapi3 shape q = true →
        1 - (shape.1 : ℤ) ≤ q.1 ∧ 1 - (shape.2.1 : ℤ) ≤ q.2.1 ∧
          1 - (shape.2.2 : ℤ) ≤ q.2.2 :=
      fun q hq => hv q (List.mem_cons_of_mem _ hq)
    by_cases hp : inDapi3 shape p = true
    · rw [List.filter_cons_of_pos hp]
      unfold lookupAll3
      rw [maskLookup3_ok hp (hv p (List.mem_cons_self _ _) hp), ih hvrest,
        List.map_cons]
    · rw [List.filter_cons_of_neg (by simpa using hp)]
      exact ih hvrest

lemma mergeWalk_filter (shape : ℕ × ℕ × ℕ) (maskB : ℕ → ℕ → ℕ → Bool)
    (pts : List Pt3) :
    mergeWalk (pts.map fun p => inDapi3 shape p)
        ((pts.filter fun p => inDapi3 shape p).map (maskWrap3 shape maskB)) =
      pts.map fun p => inDapi3 shape p && maskWrap3 shape maskB p := by
  induction pts with
  | nil => rfl
  | cons p rest ih =>
    by_cases hp : inDapi3 shape p = true
    · rw [List.map_cons, List.filter_cons_of_pos hp, List.map_cons]
      unfold mergeWalk
      rw [if_pos hp, List.map_cons, hp]
      simp only [List.headD_cons, List.tail_cons, Bool.true_and]
      rw [ih]
    · have hp' : inDapi3 shape p = false := by simpa using hp
      rw [List.map_cons, List.filter_cons_of_neg (by simpa using hp), List.map_cons]
      unfold mergeWalk
      rw [hp']
      simp only [Bool.false_and, if_neg (by simp : ¬ false = true)]
      rw [ih]

/-- Closed form of the mask-override step when every in-bounds-checked
    molecule has wrapped indices above -shape: no error is raised, an
    upper-bound overflow on any axis keeps the previous flag, and every
    other molecule is tested against the voxel at its Python-wrapped
    (possibly end-relative) grid index. -/
lemma maskOverride3_eq (shape : ℕ × ℕ × ℕ) (maskB : ℕ → ℕ → ℕ → Bool)
    (pts : List Pt3) (flags : List ℤ)
    (hv : ∀ p ∈ pts, inDapi3 shape p = true →
      1 - (shape.1 : ℤ) ≤ p.1 ∧ 1 - (shape.2.1 : ℤ) ≤ p.2.1 ∧
        1 - (shape.2.2 : ℤ) ≤ p.2.2) :
    maskOverride3 shape maskB pts flags =
      .ok (List.zipWith
        (fun p f => if inDapi3 shape p && maskWrap3 shape maskB p then 0 else f)
        pts flags) := by
  unfold maskOverride3
  rw [lookupAll3_filter_ok shape maskB pts hv]
  show Except.ok
      (List.zipWith (fun b f => if b = true then 0 else f)
        (mergeWalk (List.map (fun p => inDapi3 shape p) pts)
          (List.map (maskWrap3 shape maskB) (List.filter (fun p => inDapi3 shape p) pts)))
        flags) = _
  rw [mergeWalk_filter shape maskB pts, List.zipWith_map_left]

/-- C6 (amended): for molecules whose wrapped grid index is not below
    -shape, the 3D mask-override step never raises: a molecule whose
    location overflows the UPPER bound of the mask on any axis is silently
    excluded (its noise_flag is left as set by the earlier steps), but a
    molecule with a nonpositive coordinate is NOT excluded — its grid
    index is negative and Python indexing wraps it to the end of the axis,
    so the override reads the voxel there and may force the flag to 0. -/
theorem C6_mask_override (shape : ℕ × ℕ × ℕ) (maskB : ℕ → ℕ → ℕ → Bool)
    (pts : List Pt3) (flags : List ℤ)
    (hv : ∀ p ∈ pts, inDapi3 shape p = true →
      1 - (shape.1 : ℤ) ≤ p.1 ∧ 1 - (shape.2.1 : ℤ) ≤ p.2.1 ∧
        1 - (shape.2.2 : ℤ) ≤ p.2.2) :
    maskOverride3 shape maskB pts flags =
      .ok (List.zipWith
        (fun p f => if inDapi3 shape p && maskWrap3 shape maskB p then 0 else f)
        pts flags) :=
  maskOverride3_eq shape maskB pts flags hv

/-- C6 witness: a 1x1x1 all-True mask with one molecule at (0,1,1): the
    first grid index is -1, wraps to 0, the voxel is True and the flag -1
    is overridden to 0. -/
theorem C6_witness :
    maskOverride3 (1, 1, 1) (fun _ _ _ => true) [((0 : ℤ), (1 : ℤ), (1 : ℤ))]
      [(-1 : ℤ)] = .ok [0] :=
  (C6_mask_override (1, 1, 1) (fun _ _ _ => true) [((0 : ℤ), (1 : ℤ), (1 : ℤ))]
    [(-1 : ℤ)] (by decide)).trans (by decide)

/-- C6 counterexample: the same molecule at (0,1,1) lies outside the
    mask's bounding box (grid index -1 on the first axis), so the claim
    predicts it is excluded from the override and keeps noise_flag -1;
    the source instead wraps the index and forces the flag to 0. -/
theorem C6_cx :
    maskOverride3 (1, 1, 1) (fun _ _ _ => true) [((0 : ℤ), (1 : ℤ), (1 : ℤ))]
      [(-1 : ℤ)] ≠ .ok [(-1 : ℤ)] := by
  decide

/-! ## C9 -/

lemma mergeWalk_length (bs : List Bool) : ∀ ts : List Bool,
    (mergeWalk bs ts).length = bs.length := by
  induction bs with
  | nil => intro ts; rfl
  | cons b bs ih =>
    intro ts
    unfold mergeWalk
    by_cases hb : b = true
    · rw [if_pos hb]
      simp [ih]
    · rw [if_neg hb]
      simp [ih]

lemma maskOverride3_ok_length {shape : ℕ × ℕ × ℕ} {maskB : ℕ → ℕ → ℕ → Bool}
    {pts : List Pt3} {flags l : List ℤ}
    (h : maskOverride3 shape maskB pts flags = .ok l) :
    l.length = min pts.length flags.length := by
  unfold maskOverride3 at h
  split at h
  · exact absurd h (by simp)
  · injection h with h
    rw [← h, List.length_zipWith, mergeWalk_length, List.length_map]

lemma applyLof_length (preds : List Bool) (flags : List ℤ) :
    (applyLof preds flags).length = flags.length := by
  simp [applyLof]

lemma lofFlags_length (lof : Bool) (preds : List Bool) (flags : List ℤ) :
    (lofFlags lof preds flags).length = flags.length := by
  unfold lofFlags
  split
  · exact applyLof_length preds flags
  · rfl

lemma noiseFlags_length (scores : List ℤ) (t : ℤ × ℤ) :
    (noiseFlags scores t).length = scores.length := by
  simp [noiseFlags]

lemma denoiserScores3_length (spots : List Spot3) (dapiC : List Pt3) (xy : ℤ) :
    (denoiserScores3 spots dapiC xy).length = spots.length := by
  simp [denoiserScores3]

lemma map_proj_zipWith_upd {β : Type} (proj : Spot3 → β)
    (hproj : ∀ (s : Spot3) (f : ℤ),
      proj (Spot3.mk s.loc1 s.loc2 s.loc3 s.gene f) = proj s) :
    ∀ (spots : List Spot3) (flags : List ℤ), spots.length ≤ flags.length →
      (List.zipWith (fun s f => Spot3.mk s.loc1 s.loc2 s.loc3 s.gene f)
        spots flags).map proj = spots.map proj := by
  intro spots
  induction spots with
  | nil => intro flags _; rfl
  | cons s rest ih =>
    intro flags hlen
    cases flags with
    | nil => simp at hlen
    | cons f fs =>
      simp only [List.zipWith_cons_cons, List.map_cons, hproj]
      rw [ih fs (by simpa using hlen)]

/-- C9: the denoiser rewrites only the is_noise column: on any successful
    run (any mask, any radius, any percentile, any outlier oracle) the
    resulting table has exactly the location columns and gene ids of the
    input table, row for row; the pipeline's effect is fully described by
    the returned table state (the Python wrapper returns None and effects
    the same change by mutating the table in place). -/
theorem C9_frame_effect (spots : List Spot3) (g : ℕ) (shape : ℕ × ℕ × ℕ)
    (maskB : ℕ → ℕ → ℕ → Bool) (lof : Bool) (oracle : List Pt3 → List Bool)
    (xy : ℤ) (pct : ℚ) (res : List Spot3)
    (h : preprocessing_data3 spots g shape maskB lof oracle xy pct = .ok res) :
    res.map Spot3.loc1 = spots.map Spot3.loc1 ∧
    res.map Spot3.loc2 = spots.map Spot3.loc2 ∧
    res.map Spot3.loc3 = spots.map Spot3.loc3 ∧
    res.map Spot3.gene = spots.map Spot3.gene := by
  unfold preprocessing_data3 at h
  split at h
  · exact absurd h (by simp)
  · rename_i dapiC hdc
    unfold denoiserMain3 at h
    split at h
    · exact absurd h (by simp)
    · split at h
      · exact absurd h (by simp)
      · rename_i t hperc
        unfold denoiserFinish3 at h
        split at h
        · exact absurd h (by simp)
        · rename_i flags3 hmo
          injection h with h
          rw [← h]
          have h2 : spots.length ≤ flags3.length := by
            rw [maskOverride3_ok_length hmo, lofFlags_length, noiseFlags_length,
              denoiserScores3_length, List.length_map]
            omega
          exact ⟨map_proj_zipWith_upd Spot3.loc1 (fun _ _ => rfl) spots flags3 h2,
            map_proj_zipWith_upd Spot3.loc2 (fun _ _ => rfl) spots flags3 h2,
            map_proj_zipWith_upd Spot3.loc3 (fun _ _ => rfl) spots flags3 h2,
            map_proj_zipWith_upd Spot3.gene (fun _ _ => rfl) spots flags3 h2⟩

/-- C9 witness: a concrete successful run: the flag column changes from 5
    to 0 while locations and gene are untouched. -/
theorem C9_witness :
    ([⟨1, 1, 1, 2, 0⟩] : List Spot3).map Spot3.loc1 =
      ([⟨1, 1, 1, 2, 5⟩] : List Spot3).map Spot3.loc1 ∧
    ([⟨1, 1, 1, 2, 0⟩] : List Spot3).map Spot3.loc2 =
      ([⟨1, 1, 1, 2, 5⟩] : List Spot3).map Spot3.loc2 ∧
    ([⟨1, 1, 1, 2, 0⟩] : List Spot3).map Spot3.loc3 =
      ([⟨1, 1, 1, 2, 5⟩] : List Spot3).map Spot3.loc3 ∧
    ([⟨1, 1, 1, 2, 0⟩] : List Spot3).map Spot3.gene =
      ([⟨1, 1, 1, 2, 5⟩] : List Spot3).map Spot3.gene :=
  C9_frame_effect [⟨1, 1, 1, 2, 5⟩] 5 (1, 1, 1) (fun _ _ _ => true) false
    (fun _ => []) 10 0 [⟨1, 1, 1, 2, 0⟩] (by decide)

/-! ## C7 -/

lemma npPercentile100_ok_iff (xs : List ℤ) (pct : ℚ) :
    (∃ t, npPercentile100 xs pct = .ok t) ↔
      (¬ (pct.num < 0 ∨ (pct.den : ℤ) < pct.num) ∧ xs ≠ []) := by
  unfold npPercentile100
  by_cases h1 : pct.num < 0 ∨ (pct.den : ℤ) < pct.num
  · rw [if_pos h1]
    constructor
    · rintro ⟨t, ht⟩
      cases ht
    · rintro ⟨hn, _⟩
      exact absurd h1 hn
  · rw [if_neg h1]
    by_cases h2 : xs.length = 0
    · rw [if_pos h2]
      simp [h1, List.length_eq_zero.mp h2]
    · rw [if_neg h2]
      simp only [h1, not_false_iff, true_and]
      constructor
      · intro _
        intro hxe
        exact h2 (by rw [hxe]; rfl)
      · intro _
        exact ⟨_, rfl⟩

lemma pct_range_iff (pct : ℚ) :
    ¬ (pct.num < 0 ∨ (pct.den : ℤ) < pct.num) ↔ (0 ≤ pct ∧ pct ≤ 1) := by
  have h0 : (0 ≤ pct) = (0 ≤ pct.num) := propext Rat.num_nonneg.symm
  have h1 : (pct ≤ 1) = (pct.num ≤ (pct.den : ℤ)) := by
    rw [Rat.le_def]
    norm_num
  rw [h0, h1]
  omega

lemma denoiserMain3_ok_iff (spots : List Spot3) (dapiC : List Pt3)
    (shape : ℕ × ℕ × ℕ) (maskB : ℕ → ℕ → ℕ → Bool) (lof : Bool)
    (oracle : List Pt3 → List Bool) (xy : ℤ) (pct : ℚ)
    (hcoord : ∀ s ∈ spots, 1 ≤ s.loc1 ∧ 1 ≤ s.loc2 ∧ 1 ≤ s.loc3) :
    isOk (denoiserMain3 spots dapiC shape maskB lof oracle xy pct) = true ↔
      (spots ≠ [] ∧ 0 ≤ pct ∧ pct ≤ 1) := by
  constructor
  · intro hok
    unfold denoiserMain3 at hok
    split at hok
    · simp [isOk] at hok
    · split at hok
      · simp [isOk] at hok
      · rename_i t hperc
        have hc := (npPercentile100_ok_iff _ _).mp ⟨t, hperc⟩
        refine ⟨?_, (pct_range_iff pct).mp hc.1⟩
        intro hnil
        apply hc.2
        rw [hnil]
        rfl
  · rintro ⟨hnil, hr⟩
    have hfit : ¬ (spots.map spotsArray3 ++ dapiC).length = 0 := by
      cases spots with
      | nil => exact absurd rfl hnil
      | cons s rest => simp
    obtain ⟨t, ht⟩ : ∃ t,
        npPercentile100 (denoiserScores3 spots dapiC xy) pct = .ok t := by
      apply (npPercentile100_ok_iff _ _).mpr
      refine ⟨(pct_range_iff pct).mpr hr, ?_⟩
      intro he
      apply hnil
      have hlen := congrArg List.length he
      rw [denoiserScores3_length] at hlen
      exact List.length_eq_zero.mp hlen
    have hv : ∀ p ∈ spots.map spotsArray3, inDapi3 shape p = true →
        1 - (shape.1 : ℤ) ≤ p.1 ∧ 1 - (shape.2.1 : ℤ) ≤ p.2.1 ∧
          1 - (shape.2.2 : ℤ) ≤ p.2.2 := by
      intro p hp _
      obtain ⟨s, hs, rfl⟩ := List.mem_map.mp hp
      have hcs := hcoord s hs
      simp only [spotsArray3]
      refine ⟨by omega, by omega, by omega⟩
    have hmo := maskOverride3_eq shape maskB (spots.map spotsArray3)
      (lofFlags lof (oracle (spots.map spotsArray3))
        (noiseFlags (denoiserScores3 spots dapiC xy) t)) hv
    unfold denoiserMain3
    rw [if_neg hfit, ht]
    show isOk (denoiserFinish3 spots shape maskB
      (lofFlags lof (oracle (spots.map spotsArray3))
        (noiseFlags (denoiserScores3 spots dapiC xy) t))) = true
    unfold denoiserFinish3
    rw [hmo]
    rfl

/-- C7 (amended): the denoiser performs no up-front validation at all.
    With the outlier detector disabled (the source wrapper's default) and
    a nonzero grid stride, a 3D run over a table whose coordinates are at
    least 1 (so the mask override cannot raise) succeeds iff the molecule
    table is nonempty and pct_filter lies in the CLOSED interval [0, 1] —
    in particular pct_filter = 1 is accepted (numpy allows the 100th
    percentile) — and the failures that do occur arise inside the pipeline
    (empty fit / percentile), after the spatial index stage, not from a
    parameter check run beforehand.  Additionally, grid stride 0 over a
    mask grid with all axes nonempty fails with a ZeroDivisionError raised
    by the background-sampling loop, again with no prior validation. -/
theorem C7_failure_condition (spots : List Spot3) (g : ℕ) (shape : ℕ × ℕ × ℕ)
    (maskB : ℕ → ℕ → ℕ → Bool) (oracle : List Pt3 → List Bool)
    (xy : ℤ) (pct : ℚ)
    (hcoord : ∀ s ∈ spots, 1 ≤ s.loc1 ∧ 1 ≤ s.loc2 ∧ 1 ≤ s.loc3)
    (hg : g ≠ 0) :
    (isOk (preprocessing_data3 spots g shape maskB false oracle xy pct) = true ↔
      (spots ≠ [] ∧ 0 ≤ pct ∧ pct ≤ 1)) ∧
    (0 < shape.1 → 0 < shape.2.1 → 0 < shape.2.2 →
      ∀ (lof2 : Bool) (oracle2 : List Pt3 → List Bool),
        preprocessing_data3 spots 0 shape maskB lof2 oracle2 xy pct =
          .error .zeroDivision) := by
  constructor
  · have hpre : preprocessing_data3 spots g shape maskB false oracle xy pct =
        denoiserMain3 spots (dapiCoordList3 shape g maskB) shape maskB false
          oracle xy pct := by
      unfold preprocessing_data3 dapiCoord3
      rw [if_neg (fun hc => hg hc.1)]
    rw [hpre]
    exact denoiserMain3_ok_iff spots (dapiCoordList3 shape g maskB) shape maskB
      false oracle xy pct hcoord
  · intro h1 h2 h3 lof2 oracle2
    unfold preprocessing_data3 dapiCoord3
    rw [if_pos ⟨rfl, h1, h2, h3⟩]

/-- C7 witness: a nonempty table with pct_filter = 0 and stride 5 runs to
    completion, and the same run with stride 0 on the 1x1x1 grid raises
    the division error. -/
theorem C7_witness :
    isOk (preprocessing_data3 [⟨1, 1, 1, 1, 0⟩] 5 (1, 1, 1) (fun _ _ _ => false)
      false (fun _ => []) 10 0) = true ∧
    preprocessing_data3 [⟨1, 1, 1, 1, 0⟩] 0 (1, 1, 1) (fun _ _ _ => false)
      false (fun _ => []) 10 0 = .error .zeroDivision := by
  have h := C7_failure_condition [⟨1, 1, 1, 1, 0⟩] 5 (1, 1, 1)
    (fun _ _ _ => false) (fun _ => []) 10 0 (by decide) (by decide)
  exact ⟨h.1.mpr ⟨by decide, by decide, by decide⟩,
    h.2 (by decide) (by decide) (by decide) false (fun _ => [])⟩

/-- C7 counterexample: pct_filter = 1 lies outside the claimed legal range
    [0, 1), yet the denoiser run SUCCEEDS (numpy accepts the 100th
    percentile), so the claim that it always fails there is false. -/
theorem C7_cx :
    isOk (preprocessing_data3 [⟨1, 1, 1, 1, 0⟩] 5 (1, 1, 1) (fun _ _ _ => false)
      false (fun _ => []) 10 1) = true := by
  decide

/-! ## C8 -/

lemma foldr_min_const (c : ℤ) : ∀ l : List ℤ, (∀ x ∈ l, x = c) → l.foldr min c = c := by
  intro l
  induction l with
  | nil => intro _; rfl
  | cons a l ih =>
    intro hmem
    simp only [List.foldr_cons]
    rw [ih (fun x hx => hmem x (by simp [hx])), hmem a (by simp), min_self]

lemma foldr_max_const (c : ℤ) : ∀ l : List ℤ, (∀ x ∈ l, x = c) → l.foldr max c = c := by
  intro l
  induction l with
  | nil => intro _; rfl
  | cons a l ih =>
    intro hmem
    simp only [List.foldr_cons]
    rw [ih (fun x hx => hmem x (by simp [hx])), hmem a (by simp), max_self]

lemma erosion5_const (h w : ℕ) (c : ℤ) (i j : ℕ) :
    erosion5 h w (fun _ _ => c) i j = c := by
  unfold erosion5
  apply foldr_min_const
  intro x hx
  obtain ⟨o, _, rfl⟩ := List.mem_map.mp hx
  rfl

lemma dilate3_const (h w : ℕ) (c : ℤ) (i j : ℕ) :
    dilate3 h w (fun _ _ => c) i j = c := by
  unfold dilate3
  apply foldr_max_const
  intro x hx
  obtain ⟨o, _, rfl⟩ := List.mem_map.mp hx
  rfl

lemma erosion5_const_fun (h w : ℕ) (c : ℤ) :
    erosion5 h w (fun _ _ => c) = fun _ _ => c := by
  funext i j
  exact erosion5_const h w c i j

lemma reconStep_const (h w : ℕ) (c : ℤ) :
    reconStep h w (fun _ _ => c) (fun _ _ => c) = fun _ _ => c := by
  funext i j
  unfold reconStep
  rw [dilate3_const, min_self]

lemma reconstructIm_const (h w : ℕ) (c : ℤ) :
    reconstructIm h w (fun _ _ => c) (fun _ _ => c) = fun _ _ => c := by
  unfold reconstructIm
  have hfix : ∀ n : ℕ,
      (reconStep h w (fun _ _ => c))^[n] (fun _ _ => c) = fun _ _ => c := by
    intro n
    induction n with
    | zero => rfl
    | succ n ih => rw [Function.iterate_succ_apply, reconStep_const, ih]
  exact hfix (h * w)

lemma reconSlice_const (h w : ℕ) (c : ℤ) (t : ℕ) :
    reconSlice h w (fun _ _ _ => c) t = fun _ _ => c := by
  show reconstructIm h w (erosion5 h w (fun _ _ => c)) (fun _ _ => c) = _
  rw [erosion5_const_fun, reconstructIm_const]

lemma dedup_length_le_one (c : ℤ) : ∀ l : List ℤ,
    (∀ x ∈ l, x = c) → l.dedup.length ≤ 1 := by
  intro l
  induction l with
  | nil => intro _; simp
  | cons a l ih =>
    intro hmem
    by_cases hm : a ∈ l
    · rw [List.dedup_cons_of_mem hm]
      exact ih (fun x hx => hmem x (by simp [hx]))
    · have hl : l = [] := by
        cases l with
        | nil => rfl
        | cons b bs =>
          exfalso
          apply hm
          have hb : b = c := hmem b (by simp)
          have ha : a = c := hmem a (by simp)
          rw [ha, ← hb]
          exact List.mem_cons_self b bs
      subst hl
      simp

lemma uniqueCount_const (h w : ℕ) (c : ℤ) : uniqueCount h w (fun _ _ => c) < 2 := by
  unfold uniqueCount
  have hle := dedup_length_le_one c (imgList h w (fun _ _ => c)) ?_
  · omega
  · intro x hx
    unfold imgList at hx
    simp only [List.mem_flatMap, List.mem_map] at hx
    obtain ⟨i, _, j, _, rfl⟩ := hx
    rfl

lemma sliceThresh_const (h w : ℕ) (c : ℤ) : sliceThresh h w (fun _ _ => c) = 0 := by
  unfold sliceThresh
  rw [if_pos (uniqueCount_const h w c)]

/-- C8 (amended): the degenerate guard exists only in the 3D branch of
    fast_mode = false, and there a constant slice does get threshold 0
    instead of Otsu; but because every reconstructed value of a
    nonnegative constant volume is >= 0, threshold 0 marks everything as
    FOREGROUND: the final mask of a constant volume of value c is
    all-foreground when c is nonzero, and all-background only for c = 0
    (through the dapi == 0 override), not in general as claimed. -/
theorem C8_binarize_degenerate (c : ℤ) (h w d i j t : ℕ) (hc : 0 ≤ c) :
    sliceThresh h w (reconSlice h w (fun _ _ _ => c) t) = 0 ∧
    binarize_dapi3 h w d (fun _ _ _ => c) i j t = decide (c ≠ 0) := by
  have hrs := reconSlice_const h w c t
  constructor
  · rw [hrs, sliceThresh_const]
  · unfold binarize_dapi3
    rw [hrs, sliceThresh_const]
    simp [hc]

/-- C8 witness: a constant volume of value 5 gets slice threshold 0 and an
    all-foreground mask. -/
theorem C8_witness :
    sliceThresh 1 1 (reconSlice 1 1 (fun _ _ _ => 5) 0) = 0 ∧
    binarize_dapi3 1 1 1 (fun _ _ _ => 5) 0 0 0 = decide ((5 : ℤ) ≠ 0) :=
  C8_binarize_degenerate 5 1 1 1 0 0 0 (by decide)

set_option maxRecDepth 4000 in
/-- C8 counterexample: a constant-intensity volume of value 5 does NOT
    produce an all-background mask: the voxel (0,0,0) of the 1x1x1 mask is
    foreground (the guard sets threshold 0 and 5 >= 0). -/
theorem C8_cx : ¬ binarize_dapi3 1 1 1 (fun _ _ _ => 5) 0 0 0 = false := by
  decide
